import Mathlib

/-!
Verification of the ranking engine in src/app.py (the airea repository).

The file is a shallow embedding of the two endpoint handlers, autocomplete
and search, together with the SQL retrieval they perform.  External
collaborators are modelled as parameters:

* the fuzzy string-matching library (fuzzywuzzy) is a record FuzzLib of
  three scoring functions, since the library is an external dependency;
  demoFz is one concrete executable instantiation (edit-distance-ratio
  based) used to evaluate closed examples;
* the PostGIS geography distance is a parameter stDist; distances are
  modelled as exact rationals;
* the store is a Store value: connection failure, query-time failure, or a
  list of rows; SELECT statements are modelled by list operations that
  follow the SQL text (DISTINCT as dedup, ILIKE as case-insensitive
  containment, ORDER BY as a stable sort, LIMIT as take).

Python str.lower and str.strip are modelled character-wise (strLower,
strTrim); Python dict insertion with preserved insertion order is modelled
by upsertByTitle; Python stable list.sort with a tuple key is modelled by
List.insertionSort on a lexicographic key.
-/

namespace Airea

/-- Character-wise model of Python str.lower (ASCII case folding). -/
def strLower (s : String) : String := ⟨s.data.map Char.toLower⟩

/-- Model of Python str.strip: drop whitespace at both ends. -/
def strTrim (s : String) : String :=
  ⟨((s.data.dropWhile Char.isWhitespace).reverse.dropWhile Char.isWhitespace).reverse⟩

/-- pat is a prefix of s (on character lists). -/
def isPre : List Char → List Char → Bool
  | [], _ => true
  | _ :: _, [] => false
  | a :: as, b :: bs => a = b && isPre as bs

/-- pat occurs somewhere in s (on character lists). -/
def subAt : List Char → List Char → Bool
  | p, [] => p.isEmpty
  | p, c :: rest => isPre p (c :: rest) || subAt p rest

/-- Model of the Python substring test pat in s, and of SQL ILIKE
containment once both sides are lower-cased. -/
def containsSub (s pat : String) : Bool := subAt pat.data s.data

/-- A row of the properties table, as the two handlers read it. -/
structure Listing where
  title : String
  property_type : String
  geom : Option (Rat × Rat)
deriving DecidableEq

/-- The state of the external store for one request: connection failure,
failure when a query is executed, or a working store holding rows. -/
inductive Store where
  | connectFail : Store
  | queryFail : List Listing → Store
  | avail : List Listing → Store

/-- An HTTP response: a JSON list with status 200, or a JSON error payload
with a non-success status code. -/
inductive HttpResp (α : Type) where
  | list : List α → HttpResp α
  | err : String → Nat → HttpResp α
deriving DecidableEq

/-- The list carried by a response; an error payload carries no items. -/
def respItems {α : Type} : HttpResp α → List α
  | .list l => l
  | .err _ _ => []

/-- The external fuzzy string-matching library (fuzzywuzzy): whole-string
ratio, best-substring ratio, and token-sort ratio. -/
structure FuzzLib where
  ratio : String → String → Nat
  partRatio : String → String → Nat
  tokenSortRatio : String → String → Nat

/-- The priority table of app.py: dict.get over
apartment=1, house=2, condominium=3 with default 4. -/
def priorityOrder (t : String) : Nat :=
  if t = "apartment" then 1
  else if t = "house" then 2
  else if t = "condominium" then 3
  else 4

/-! ## Autocomplete (app.py lines 25-116) -/

/-- SELECT DISTINCT title, property_type FROM properties. -/
def autoAll (data : List Listing) : List (String × String) :=
  (data.map fun l => (l.title, l.property_type)).dedup

/-- SELECT DISTINCT title, property_type FROM properties WHERE title ILIKE
pattern LIMIT 50, where pattern surrounds the query with wildcards. -/
def autoIlike (data : List Listing) (query : String) : List (String × String) :=
  (((data.filter fun l => containsSub (strLower l.title) (strLower query)).map
    fun l => (l.title, l.property_type)).dedup).take 50

/-- An internal candidate of the autocomplete handler. -/
structure AutoEntry where
  title : String
  type : String
  score : Nat
  priority : Nat
deriving DecidableEq

/-- The entry built for an ILIKE hit: score is the partial ratio of the
lower-cased query and title, boosted to at least 70. -/
def mkIlikeEntry (fz : FuzzLib) (query : String) (p : String × String) : AutoEntry :=
  ⟨p.1, p.2, Nat.max (fz.partRatio (strLower query) (strLower p.1)) 70, priorityOrder p.2⟩

/-- The fuzzy score of the autocomplete handler: the maximum of the three
library metrics on the lower-cased query and title (app.py lines 81-87). -/
def autoFuzzyScore (fz : FuzzLib) (query title : String) : Nat :=
  Nat.max
    (Nat.max (fz.ratio (strLower query) (strLower title))
      (fz.partRatio (strLower query) (strLower title)))
    (fz.tokenSortRatio (strLower query) (strLower title))

/-- The entry built for a fuzzy-pool candidate. -/
def mkFuzzyEntry (fz : FuzzLib) (query : String) (p : String × String) : AutoEntry :=
  ⟨p.1, p.2, autoFuzzyScore fz query p.1, priorityOrder p.2⟩

/-- Python dict assignment combined_results[title] = e: replace in place
when the title is present, append otherwise. -/
def upsertByTitle (e : AutoEntry) : List AutoEntry → List AutoEntry
  | [] => [e]
  | x :: xs => if x.title = e.title then e :: xs else x :: upsertByTitle e xs

/-- First loop of the handler: insert every ILIKE hit. -/
def autoPhase1 (fz : FuzzLib) (query : String) (il : List (String × String)) : List AutoEntry :=
  il.foldl (fun acc p => upsertByTitle (mkIlikeEntry fz query p) acc) []

/-- Second loop of the handler: skip titles already present, admit a new
candidate only when its fuzzy score reaches 40. -/
def autoStep (fz : FuzzLib) (query : String) (acc : List AutoEntry) (p : String × String) :
    List AutoEntry :=
  if p.1 ∈ acc.map (fun e => e.title) then acc
  else if 40 ≤ autoFuzzyScore fz query p.1 then acc ++ [mkFuzzyEntry fz query p] else acc

/-- The combined_results dict after both loops, in insertion order. -/
def autoCombined (fz : FuzzLib) (data : List Listing) (query : String) : List AutoEntry :=
  (autoAll data).foldl (autoStep fz query) (autoPhase1 fz query (autoIlike data query))

/-- The sort key of the autocomplete handler: (priority, -score). -/
def autoSortKey (e : AutoEntry) : Lex (Nat × Int) :=
  toLex (e.priority, -(e.score : Int))

/-- The sort relation of the autocomplete handler. -/
def rAuto (a b : AutoEntry) : Prop := autoSortKey a ≤ autoSortKey b

instance : DecidableRel rAuto :=
  fun a b => inferInstanceAs (Decidable (autoSortKey a ≤ autoSortKey b))

instance : IsTotal AutoEntry rAuto := ⟨fun a b => le_total (autoSortKey a) (autoSortKey b)⟩

instance : IsTrans AutoEntry rAuto := ⟨fun _ _ _ h1 h2 => le_trans h1 h2⟩

/-- The entries surviving sort and truncation to the top 5. -/
def autoKept (fz : FuzzLib) (data : List Listing) (query : String) : List AutoEntry :=
  (List.insertionSort rAuto (autoCombined fz data query)).take 5

/-- An autocomplete output item: title, type and score are exposed. -/
structure AutoSuggestion where
  title : String
  type : String
  score : Nat
deriving DecidableEq

/-- The autocomplete endpoint.  Validation rejects queries shorter than 2
after stripping; a store failure is answered with an error payload and
status 500 (app.py lines 114-116). -/
def autocomplete (fz : FuzzLib) (db : Store) (qRaw : String) : HttpResp AutoSuggestion :=
  let query := strTrim qRaw
  if query.data.isEmpty || query.length < 2 then .list []
  else
    match db with
    | .connectFail => .err "Internal server error" 500
    | .queryFail _ => .err "Internal server error" 500
    | .avail data =>
        .list ((autoKept fz data query).map fun e => ⟨e.title, e.type, e.score⟩)

/-! ## Search (app.py lines 118-297) -/

/-- A row returned by the search SQL: title, property type, distance. -/
abbrev SearchRow := String × String × Option Rat

/-- The static property-type mapping of the handler, in insertion order. -/
def typePairs : List (String × List String) :=
  [("condo", ["apartment", "condominium"]),
   ("apartment", ["apartment"]),
   ("house", ["house"])]

/-- Property types parsed from the query; defaults to the three priority
types when no keyword occurs in the query. -/
def parseTypes (query : String) : List String :=
  let pts := typePairs.foldl (fun acc kv => if containsSub query kv.1 then acc ++ kv.2 else acc) []
  if pts.isEmpty then ["apartment", "house", "condominium"] else pts

/-- The static location mapping of the handler. -/
def locationPairs : List (String × (Rat × Rat)) :=
  [("mrt surian", (101.594, 3.150)),
   ("mrt sungai buloh", (101.578, 3.206))]

/-- Coordinates of the first landmark name occurring in the query. -/
def parseCoords (query : String) : Option (Rat × Rat) :=
  (locationPairs.find? fun kv => containsSub query kv.1).map (fun kv => kv.2)

/-- A missing distance sorts last: none is mapped to the top element. -/
def toTop : Option Rat → WithTop Rat
  | none => ⊤
  | some x => (x : WithTop Rat)

/-- ORDER BY distance_meters for the spatial query. -/
def rRowDist (a b : SearchRow) : Prop := toTop a.2.2 ≤ toTop b.2.2

instance : DecidableRel rRowDist :=
  fun a b => inferInstanceAs (Decidable (toTop a.2.2 ≤ toTop b.2.2))

/-- ORDER BY title for the text query. -/
def rRowTitle (a b : SearchRow) : Prop := a.1 ≤ b.1

instance : DecidableRel rRowTitle := fun a b => inferInstanceAs (Decidable (a.1 ≤ b.1))

/-- The spatial SQL: type filter, non-null geometry, within 5000 meters,
distance selected, ordered by distance, LIMIT 50. -/
def spatialRows (stDist : Rat × Rat → Rat × Rat → Rat) (data : List Listing)
    (types : List String) (pt : Rat × Rat) : List SearchRow :=
  let cand := data.filterMap fun l =>
    match l.geom with
    | none => none
    | some g =>
        if l.property_type ∈ types ∧ stDist g pt ≤ 5000
        then some (l.title, l.property_type, some (stDist g pt)) else none
  (List.insertionSort rRowDist cand).take 50

/-- The text SQL: type filter, title ILIKE pattern, NULL distance, ordered
by title, LIMIT 50. -/
def textRows (data : List Listing) (types : List String) (query : String) : List SearchRow :=
  let cand := (data.filter fun l =>
      l.property_type ∈ types ∧ containsSub (strLower l.title) (strLower query) = true).map
    fun l => (l.title, l.property_type, (none : Option Rat))
  (List.insertionSort rRowTitle cand).take 50

/-- Round half to even, the rounding of Python round. -/
def roundHalfEven (x : Rat) : Int :=
  let n : Int := x.floor
  if x - (n : Rat) < (1 : Rat) / 2 then n
  else if (1 : Rat) / 2 < x - (n : Rat) then n + 1
  else if n % 2 = 0 then n else n + 1

/-- Python round(x, 2) on an exact rational. -/
def round2 (x : Rat) : Rat := ((roundHalfEven (x * 100) : Int) : Rat) / 100

/-- The lexical score of the search handler: the maximum of ratio and
partial ratio only, on the query (already lower-cased by the handler) and
the lower-cased title (app.py lines 241-243). -/
def searchEntryScore (fz : FuzzLib) (query title : String) : Nat :=
  Nat.max (fz.ratio query (strLower title)) (fz.partRatio query (strLower title))

/-- An internal scored candidate of the search handler. -/
structure SearchEntry where
  title : String
  type : String
  distance_meters : Option Rat
  score : Nat
  priority : Nat
deriving DecidableEq

/-- One scored entry: the distance field is round(distance, 2) when the
distance is truthy (present and nonzero) and None otherwise. -/
def mkScoredEntry (fz : FuzzLib) (query : String) (r : SearchRow) : SearchEntry :=
  ⟨r.1, r.2.1,
    (match r.2.2 with
     | some x => if x ≠ 0 then some (round2 x) else none
     | none => none),
    searchEntryScore fz query r.1,
    priorityOrder r.2.1⟩

/-- The sort key of the search handler:
(priority, -score, distance with None sorted last). -/
def searchSortKey (e : SearchEntry) : Lex (Nat × Lex (Int × WithTop Rat)) :=
  toLex (e.priority, toLex (-(e.score : Int), toTop e.distance_meters))

/-- The sort relation of the search handler. -/
def rSearch (a b : SearchEntry) : Prop := searchSortKey a ≤ searchSortKey b

instance : DecidableRel rSearch :=
  fun a b => inferInstanceAs (Decidable (searchSortKey a ≤ searchSortKey b))

instance : IsTotal SearchEntry rSearch := ⟨fun a b => le_total (searchSortKey a) (searchSortKey b)⟩

instance : IsTrans SearchEntry rSearch := ⟨fun _ _ _ h1 h2 => le_trans h1 h2⟩

/-- The output loop of the handler: walk the sorted list, keep an entry
when its title is unseen and fewer than 5 entries are kept. -/
def pickTop5 : List SearchEntry → List String → List SearchEntry → List SearchEntry
  | [], _, acc => acc
  | e :: rest, seen, acc =>
      if e.title ∉ seen ∧ acc.length < 5
      then pickTop5 rest (e.title :: seen) (acc ++ [e])
      else pickTop5 rest seen acc

/-- The rows retrieved for a search query: the spatial SQL when a landmark
resolved, the text SQL otherwise. -/
def searchRowsFor (stDist : Rat × Rat → Rat × Rat → Rat) (data : List Listing)
    (query : String) : List SearchRow :=
  match parseCoords query with
  | some pt => spatialRows stDist data (parseTypes query) pt
  | none => textRows data (parseTypes query) query

/-- The kept entries of the search handler on a working store, after the
landmark check, retrieval, scoring, sorting and the output loop. -/
def searchKept (fz : FuzzLib) (stDist : Rat × Rat → Rat × Rat → Rat)
    (data : List Listing) (query : String) : List SearchEntry :=
  if containsSub query "near" = true ∧ parseCoords query = none then []
  else
    pickTop5
      (List.insertionSort rSearch ((searchRowsFor stDist data query).map (mkScoredEntry fz query)))
      [] []

/-- A search output item: no score is exposed. -/
structure SearchSuggestion where
  title : String
  type : String
  distance_meters : Option Rat
deriving DecidableEq

/-- The search endpoint.  Validation rejects queries shorter than 3 after
stripping and lower-casing; every store failure is answered with an empty
list (app.py lines 139-144 and 282-297). -/
def search (fz : FuzzLib) (stDist : Rat × Rat → Rat × Rat → Rat) (db : Store)
    (qRaw : String) : HttpResp SearchSuggestion :=
  let query := strLower (strTrim qRaw)
  if query.data.isEmpty || query.length < 3 then .list []
  else
    match db with
    | .connectFail => .list []
    | .queryFail _ => .list []
    | .avail data =>
        .list ((searchKept fz stDist data query).map fun e => ⟨e.title, e.type, e.distance_meters⟩)

/-- The lexical score as section 4.2 of the spec describes it for every
scored candidate: the maximum of the three metrics on the lower-cased
query and the lower-cased title. -/
def specThreeMax (fz : FuzzLib) (query title : String) : Nat :=
  Nat.max
    (Nat.max (fz.ratio (strLower query) (strLower title))
      (fz.partRatio (strLower query) (strLower title)))
    (fz.tokenSortRatio (strLower query) (strLower title))

/-! ## A concrete fuzzy library for closed examples

An executable instantiation of the external fuzzy-matching capability:
edit-distance-based whole-string ratio (substitutions cost 2), a
window-maximized partial ratio, and a token-sort ratio. -/

/-- One row of the edit-distance table, substitutions costing 2. -/
def levAux (ai : Char) : List Char → List Nat → Nat → List Nat
  | [], _, _ => []
  | _ :: _, [], _ => []
  | bj :: bs, pDiag :: pRest, left =>
      let cur := Nat.min (Nat.min (left + 1) ((pRest.headD (pDiag + 1)) + 1))
        (pDiag + (if ai = bj then 0 else 2))
      cur :: levAux ai bs pRest cur

/-- Edit distance with substitutions costing 2 (insert and delete cost 1). -/
def levDist2 (a b : List Char) : Nat :=
  (a.foldl (fun pr ai => (pr.headD 0 + 1) :: levAux ai b pr (pr.headD 0 + 1))
    (List.range (b.length + 1))).getLastD 0

/-- Whole-string similarity ratio in [0, 100]. -/
def ratioOf (a b : List Char) : Nat :=
  let ls := a.length + b.length
  if ls = 0 then 100 else (100 * (ls - levDist2 a b)) / ls

/-- All windows of length n of a character list (the whole list when it is
not longer than n). -/
def windows (n : Nat) : List Char → List (List Char)
  | [] => [[]]
  | c :: rest =>
      if (c :: rest).length ≤ n then [c :: rest]
      else (c :: rest).take n :: windows n rest

/-- Best-substring similarity: the best ratio of the shorter string
against every window of its length in the longer string. -/
def partOf (a b : List Char) : Nat :=
  let s := if a.length ≤ b.length then a else b
  let l := if a.length ≤ b.length then b else a
  (windows s.length l).foldl (fun m w => Nat.max m (ratioOf s w)) 0

/-- Split a character list into whitespace-separated words. -/
def wordAux : List Char → List Char → List (List Char)
  | [], cur => if cur.isEmpty then [] else [cur.reverse]
  | c :: rest, cur =>
      if c.isWhitespace then
        (if cur.isEmpty then wordAux rest [] else cur.reverse :: wordAux rest [])
      else wordAux rest (c :: cur)

/-- A total order on words used to sort tokens. -/
def charsLe : List Char → List Char → Bool
  | [], _ => true
  | _ :: _, [] => false
  | a :: as, b :: bs => if a = b then charsLe as bs else decide (a < b)

/-- The token order as a relation. -/
def rTok (x y : List Char) : Prop := charsLe x y = true

instance : DecidableRel rTok := fun x y => inferInstanceAs (Decidable (charsLe x y = true))

/-- Join words with single spaces. -/
def joinSp : List (List Char) → List Char
  | [] => []
  | t :: ts =>
      match ts with
      | [] => t
      | _ :: _ => t ++ ' ' :: joinSp ts

/-- Token-sort ratio: sort the words of both strings, rejoin, compare. -/
def tokenSortOf (a b : List Char) : Nat :=
  ratioOf (joinSp (List.insertionSort rTok (wordAux a [])))
    (joinSp (List.insertionSort rTok (wordAux b [])))

/-- The concrete fuzzy library used for closed examples. -/
def demoFz : FuzzLib :=
  ⟨fun q t => ratioOf q.data t.data,
   fun q t => partOf q.data t.data,
   fun q t => tokenSortOf q.data t.data⟩

/-- The composite key the spec states for search results, with the
priority read off the priority table:
(priority ascending, score descending, distance ascending, missing
distance last). -/
def sClaimKey (e : SearchEntry) : Lex (Nat × Lex (Int × WithTop Rat)) :=
  toLex (priorityOrder e.type, toLex (-(e.score : Int), toTop e.distance_meters))

/-- The composite key the spec states, read on an autocomplete entry: no
autocomplete entry carries a distance, so the third component is the
missing-distance value for every entry. -/
def aClaimKey (e : AutoEntry) : Lex (Nat × Lex (Int × WithTop Rat)) :=
  toLex (priorityOrder e.type, toLex (-(e.score : Int), (⊤ : WithTop Rat)))

/-! ## Helper lemmas -/

theorem strLower_length (s : String) : (strLower s).length = s.length :=
  List.length_map s.data Char.toLower

theorem mem_upsertByTitle {e e' : AutoEntry} :
    ∀ {l : List AutoEntry}, e' ∈ upsertByTitle e l → e' = e ∨ e' ∈ l := by
  intro l
  induction l with
  | nil => intro h; simp [upsertByTitle] at h; exact Or.inl h
  | cons x xs ih =>
      intro h
      by_cases hx : x.title = e.title
      · simp only [upsertByTitle, if_pos hx] at h
        rcases List.mem_cons.mp h with h1 | h1
        · exact Or.inl h1
        · exact Or.inr (List.mem_cons_of_mem _ h1)
      · simp only [upsertByTitle, if_neg hx] at h
        rcases List.mem_cons.mp h with h1 | h1
        · exact Or.inr (h1 ▸ List.mem_cons_self _ _)
        · rcases ih h1 with h2 | h2
          · exact Or.inl h2
          · exact Or.inr (List.mem_cons_of_mem _ h2)

theorem mem_titles_upsert (e : AutoEntry) (t : String) :
    ∀ l : List AutoEntry,
      t ∈ (upsertByTitle e l).map (fun x => x.title) ↔
        t = e.title ∨ t ∈ l.map (fun x => x.title) := by
  intro l
  induction l with
  | nil => simp [upsertByTitle]
  | cons x xs ih =>
      by_cases hx : x.title = e.title
      · simp only [upsertByTitle, if_pos hx, List.map_cons, List.mem_cons]
        constructor
        · rintro (h | h)
          · exact Or.inl h
          · exact Or.inr (Or.inr h)
        · rintro (h | h | h)
          · exact Or.inl h
          · exact Or.inl (hx ▸ h)
          · exact Or.inr h
      · simp only [upsertByTitle, if_neg hx, List.map_cons, List.mem_cons, ih]
        tauto

theorem nodup_titles_upsert (e : AutoEntry) :
    ∀ l : List AutoEntry, (l.map (fun x => x.title)).Nodup →
      ((upsertByTitle e l).map (fun x => x.title)).Nodup := by
  intro l
  induction l with
  | nil => intro _; simp [upsertByTitle]
  | cons x xs ih =>
      intro h
      simp only [List.map_cons, List.nodup_cons] at h
      by_cases hx : x.title = e.title
      · simp only [upsertByTitle, if_pos hx, List.map_cons, List.nodup_cons]
        exact ⟨hx ▸ h.1, h.2⟩
      · simp only [upsertByTitle, if_neg hx, List.map_cons, List.nodup_cons]
        refine ⟨fun hc => ?_, ih h.2⟩
        rcases (mem_titles_upsert e x.title xs).mp hc with h1 | h1
        · exact hx h1
        · exact h.1 h1

theorem foldl_upsert_mem (fz : FuzzLib) (query : String) :
    ∀ (il : List (String × String)) (base : List AutoEntry) (e : AutoEntry),
      e ∈ il.foldl (fun acc p => upsertByTitle (mkIlikeEntry fz query p) acc) base →
        e ∈ base ∨ ∃ p ∈ il, e = mkIlikeEntry fz query p := by
  intro il
  induction il with
  | nil => intro base e h; exact Or.inl h
  | cons p rest ih =>
      intro base e h
      simp only [List.foldl_cons] at h
      rcases ih _ e h with h1 | ⟨p', hp', he⟩
      · rcases mem_upsertByTitle h1 with h2 | h2
        · exact Or.inr ⟨p, List.mem_cons_self _ _, h2⟩
        · exact Or.inl h2
      · exact Or.inr ⟨p', List.mem_cons_of_mem _ hp', he⟩

theorem foldl_upsert_titles (fz : FuzzLib) (query : String) :
    ∀ (il : List (String × String)) (base : List AutoEntry) (t : String),
      t ∈ (il.foldl (fun acc p => upsertByTitle (mkIlikeEntry fz query p) acc) base).map
          (fun x => x.title) ↔
        t ∈ base.map (fun x => x.title) ∨ t ∈ il.map (fun p => p.1) := by
  intro il
  induction il with
  | nil => intro base t; simp
  | cons p rest ih =>
      intro base t
      simp only [List.foldl_cons, ih, mem_titles_upsert, List.map_cons, List.mem_cons]
      have : (mkIlikeEntry fz query p).title = p.1 := rfl
      rw [this]
      tauto

theorem foldl_upsert_nodup (fz : FuzzLib) (query : String) :
    ∀ (il : List (String × String)) (base : List AutoEntry),
      (base.map (fun x => x.title)).Nodup →
        ((il.foldl (fun acc p => upsertByTitle (mkIlikeEntry fz query p) acc) base).map
          (fun x => x.title)).Nodup := by
  intro il
  induction il with
  | nil => intro base h; exact h
  | cons p rest ih =>
      intro base h
      simp only [List.foldl_cons]
      exact ih _ (nodup_titles_upsert _ _ h)

theorem autoPhase1_mem {fz : FuzzLib} {query : String} {il : List (String × String)}
    {e : AutoEntry} (h : e ∈ autoPhase1 fz query il) :
    ∃ p ∈ il, e = mkIlikeEntry fz query p := by
  rcases foldl_upsert_mem fz query il [] e h with h1 | h1
  · simp at h1
  · exact h1

theorem autoPhase1_score {fz : FuzzLib} {query : String} {il : List (String × String)}
    {e : AutoEntry} (h : e ∈ autoPhase1 fz query il) : 70 ≤ e.score := by
  rcases autoPhase1_mem h with ⟨p, _, he⟩
  subst he
  exact Nat.le_max_right _ _

theorem autoPhase1_titles {fz : FuzzLib} {query : String} {il : List (String × String)}
    {t : String} :
    t ∈ (autoPhase1 fz query il).map (fun x => x.title) ↔ t ∈ il.map (fun p => p.1) := by
  unfold autoPhase1
  rw [foldl_upsert_titles]
  simp

theorem autoPhase1_nodup {fz : FuzzLib} {query : String} {il : List (String × String)} :
    ((autoPhase1 fz query il).map (fun x => x.title)).Nodup := by
  unfold autoPhase1
  exact foldl_upsert_nodup fz query il [] (by simp)

theorem autoStep_sublist (fz : FuzzLib) (query : String) (acc : List AutoEntry)
    (p : String × String) : acc.Sublist (autoStep fz query acc p) := by
  unfold autoStep
  split_ifs
  · exact List.Sublist.refl acc
  · exact List.sublist_append_left acc _
  · exact List.Sublist.refl acc

theorem foldl_autoStep_sublist (fz : FuzzLib) (query : String) :
    ∀ (ps : List (String × String)) (acc : List AutoEntry),
      acc.Sublist (ps.foldl (autoStep fz query) acc) := by
  intro ps
  induction ps with
  | nil => intro acc; exact List.Sublist.refl acc
  | cons p rest ih =>
      intro acc
      simp only [List.foldl_cons]
      exact (autoStep_sublist fz query acc p).trans (ih _)

theorem foldl_autoStep_titles_mono {fz : FuzzLib} {query : String}
    {ps : List (String × String)} {acc : List AutoEntry} {t : String}
    (h : t ∈ acc.map (fun e => e.title)) :
    t ∈ (ps.foldl (autoStep fz query) acc).map (fun e => e.title) :=
  ((foldl_autoStep_sublist fz query ps acc).map (fun e => e.title)).subset h

theorem foldl_autoStep_mem (fz : FuzzLib) (query : String) :
    ∀ (ps : List (String × String)) (acc : List AutoEntry) (e : AutoEntry),
      e ∈ ps.foldl (autoStep fz query) acc →
        e ∈ acc ∨ ∃ p ∈ ps, e = mkFuzzyEntry fz query p ∧
          40 ≤ autoFuzzyScore fz query p.1 ∧ p.1 ∉ acc.map (fun x => x.title) := by
  intro ps
  induction ps with
  | nil => intro acc e h; exact Or.inl h
  | cons p rest ih =>
      intro acc e h
      simp only [List.foldl_cons] at h
      rcases ih _ e h with h1 | ⟨p', hp', he, hs, ht⟩
      · unfold autoStep at h1
        split_ifs at h1 with hmem hscore
        · exact Or.inl h1
        · rcases List.mem_append.mp h1 with h2 | h2
          · exact Or.inl h2
          · simp only [List.mem_singleton] at h2
            exact Or.inr ⟨p, List.mem_cons_self _ _, h2, hscore, hmem⟩
        · exact Or.inl h1
      · have hta : p'.1 ∉ acc.map (fun x => x.title) := by
          intro hc
          exact ht (((autoStep_sublist fz query acc p).map (fun x => x.title)).subset hc)
        exact Or.inr ⟨p', List.mem_cons_of_mem _ hp', he, hs, hta⟩

theorem foldl_autoStep_titles_superset (fz : FuzzLib) (query : String) :
    ∀ (ps : List (String × String)) (acc : List AutoEntry) (t : String),
      t ∈ ps.map (fun p => p.1) → 40 ≤ autoFuzzyScore fz query t →
        t ∈ (ps.foldl (autoStep fz query) acc).map (fun e => e.title) := by
  intro ps
  induction ps with
  | nil => intro acc t h _; simp at h
  | cons p rest ih =>
      intro acc t h hs
      simp only [List.map_cons, List.mem_cons] at h
      simp only [List.foldl_cons]
      rcases h with h | h
      · subst h
        by_cases hmem : p.1 ∈ acc.map (fun e => e.title)
        · refine foldl_autoStep_titles_mono ?_
          unfold autoStep
          rw [if_pos hmem]
          exact hmem
        · have hstep : p.1 ∈ (autoStep fz query acc p).map (fun e => e.title) := by
            unfold autoStep
            rw [if_neg hmem, if_pos hs]
            simp [mkFuzzyEntry]
          exact foldl_autoStep_titles_mono hstep
      · exact ih _ t h hs

theorem foldl_autoStep_nodup (fz : FuzzLib) (query : String) :
    ∀ (ps : List (String × String)) (acc : List AutoEntry),
      (acc.map (fun e => e.title)).Nodup →
        ((ps.foldl (autoStep fz query) acc).map (fun e => e.title)).Nodup := by
  intro ps
  induction ps with
  | nil => intro acc h; exact h
  | cons p rest ih =>
      intro acc h
      simp only [List.foldl_cons]
      refine ih _ ?_
      unfold autoStep
      split_ifs with hmem hscore
      · exact h
      · simp only [List.map_append]
        rw [List.nodup_append]
        refine ⟨h, by simp, ?_⟩
        intro t ht hc
        simp only [List.map_cons, List.map_nil, List.mem_singleton] at hc
        have : (mkFuzzyEntry fz query p).title = p.1 := rfl
        rw [this] at hc
        exact hmem (hc ▸ ht)
      · exact h

theorem mem_autoCombined {fz : FuzzLib} {data : List Listing} {query : String}
    {e : AutoEntry} (h : e ∈ autoCombined fz data query) :
    e ∈ autoPhase1 fz query (autoIlike data query) ∨
      ∃ p ∈ autoAll data, e = mkFuzzyEntry fz query p ∧
        40 ≤ autoFuzzyScore fz query p.1 ∧
        p.1 ∉ (autoIlike data query).map (fun q => q.1) := by
  rcases foldl_autoStep_mem fz query (autoAll data) _ e h with h1 | ⟨p, hp, he, hs, ht⟩
  · exact Or.inl h1
  · refine Or.inr ⟨p, hp, he, hs, fun hc => ht (autoPhase1_titles.mpr hc)⟩

theorem autoCombined_nodup {fz : FuzzLib} {data : List Listing} {query : String} :
    ((autoCombined fz data query).map (fun e => e.title)).Nodup :=
  foldl_autoStep_nodup fz query (autoAll data) _ autoPhase1_nodup

theorem autoCombined_priority {fz : FuzzLib} {data : List Listing} {query : String}
    {e : AutoEntry} (h : e ∈ autoCombined fz data query) :
    e.priority = priorityOrder e.type := by
  rcases mem_autoCombined h with h1 | ⟨p, _, he, _, _⟩
  · rcases autoPhase1_mem h1 with ⟨p, _, he⟩
    subst he; rfl
  · subst he; rfl

theorem autoCombined_ilike_score {fz : FuzzLib} {data : List Listing} {query : String}
    {e : AutoEntry} (h : e ∈ autoCombined fz data query)
    (ht : e.title ∈ (autoIlike data query).map (fun p => p.1)) : 70 ≤ e.score := by
  rcases mem_autoCombined h with h1 | ⟨p, _, he, _, hfresh⟩
  · exact autoPhase1_score h1
  · subst he
    exact absurd ht hfresh

theorem autoCombined_fuzzy_score {fz : FuzzLib} {data : List Listing} {query : String}
    {e : AutoEntry} (h : e ∈ autoCombined fz data query)
    (ht : e.title ∉ (autoIlike data query).map (fun p => p.1)) :
    e.score = autoFuzzyScore fz query e.title := by
  rcases mem_autoCombined h with h1 | ⟨p, _, he, _, _⟩
  · rcases autoPhase1_mem h1 with ⟨p, hp, he⟩
    refine absurd ?_ ht
    subst he
    exact List.mem_map.mpr ⟨p, hp, rfl⟩
  · subst he; rfl

theorem autoCombined_titles_iff {fz : FuzzLib} {data : List Listing} {query : String}
    {t : String} (h1 : t ∈ (autoAll data).map (fun p => p.1))
    (h2 : t ∉ (autoIlike data query).map (fun p => p.1)) :
    t ∈ (autoCombined fz data query).map (fun e => e.title) ↔
      40 ≤ autoFuzzyScore fz query t := by
  constructor
  · intro hmem
    rcases List.mem_map.mp hmem with ⟨e, he, hti⟩
    rcases mem_autoCombined he with hp | ⟨p, _, hep, hs, _⟩
    · refine absurd ?_ h2
      rw [← hti]
      exact autoPhase1_titles.mp (List.mem_map.mpr ⟨e, hp, rfl⟩)
    · have : e.title = p.1 := by subst hep; rfl
      rw [← hti, this]
      exact hs
  · intro hs
    exact foldl_autoStep_titles_superset fz query (autoAll data) _ t h1 hs

theorem autoKept_subset {fz : FuzzLib} {data : List Listing} {query : String}
    {e : AutoEntry} (h : e ∈ autoKept fz data query) : e ∈ autoCombined fz data query := by
  have h1 : e ∈ List.insertionSort rAuto (autoCombined fz data query) :=
    (List.take_sublist 5 _).subset h
  exact (List.perm_insertionSort rAuto _).mem_iff.mp h1

theorem autoKept_sorted (fz : FuzzLib) (data : List Listing) (query : String) :
    List.Pairwise rAuto (autoKept fz data query) :=
  List.Pairwise.sublist (List.take_sublist 5 _) (List.sorted_insertionSort rAuto _)

theorem autoKept_length (fz : FuzzLib) (data : List Listing) (query : String) :
    (autoKept fz data query).length ≤ 5 := by
  unfold autoKept
  rw [List.length_take]
  exact min_le_left 5 _

theorem autoKept_nodup (fz : FuzzLib) (data : List Listing) (query : String) :
    ((autoKept fz data query).map (fun e => e.title)).Nodup := by
  have hsort : ((List.insertionSort rAuto (autoCombined fz data query)).map
      (fun e => e.title)).Nodup := by
    have hperm := (List.perm_insertionSort rAuto (autoCombined fz data query)).map
      (fun e => e.title)
    exact hperm.symm.nodup autoCombined_nodup
  unfold autoKept
  rw [List.map_take]
  exact (List.take_sublist 5 _).nodup hsort

theorem pickTop5_spec :
    ∀ (l : List SearchEntry) (seen : List String) (acc : List SearchEntry),
      ∃ s, pickTop5 l seen acc = acc ++ s ∧ s.Sublist l := by
  intro l
  induction l with
  | nil => intro seen acc; exact ⟨[], by simp [pickTop5], List.Sublist.refl []⟩
  | cons e rest ih =>
      intro seen acc
      by_cases hc : e.title ∉ seen ∧ acc.length < 5
      · rcases ih (e.title :: seen) (acc ++ [e]) with ⟨s, hs, hsub⟩
        refine ⟨e :: s, ?_, List.Sublist.cons₂ e hsub⟩
        simp only [pickTop5, if_pos hc]
        rw [hs, List.append_assoc]
        rfl
      · rcases ih seen acc with ⟨s, hs, hsub⟩
        exact ⟨s, by simp only [pickTop5, if_neg hc]; exact hs, List.Sublist.cons e hsub⟩

theorem pickTop5_length :
    ∀ (l : List SearchEntry) (seen : List String) (acc : List SearchEntry),
      acc.length ≤ 5 → (pickTop5 l seen acc).length ≤ 5 := by
  intro l
  induction l with
  | nil => intro seen acc h; exact h
  | cons e rest ih =>
      intro seen acc h
      by_cases hc : e.title ∉ seen ∧ acc.length < 5
      · simp only [pickTop5, if_pos hc]
        refine ih _ _ ?_
        have := hc.2
        simp only [List.length_append, List.length_cons, List.length_nil]
        omega
      · simp only [pickTop5, if_neg hc]
        exact ih _ _ h

theorem pickTop5_nodup :
    ∀ (l : List SearchEntry) (seen : List String) (acc : List SearchEntry),
      (acc.map (fun e => e.title)).Nodup →
      (∀ t ∈ acc.map (fun e => e.title), t ∈ seen) →
      ((pickTop5 l seen acc).map (fun e => e.title)).Nodup := by
  intro l
  induction l with
  | nil => intro seen acc h _; exact h
  | cons e rest ih =>
      intro seen acc h hseen
      by_cases hc : e.title ∉ seen ∧ acc.length < 5
      · simp only [pickTop5, if_pos hc]
        refine ih _ _ ?_ ?_
        · simp only [List.map_append]
          rw [List.nodup_append]
          refine ⟨h, by simp, ?_⟩
          intro t ht htc
          simp only [List.map_cons, List.map_nil, List.mem_singleton] at htc
          exact hc.1 (htc ▸ hseen t ht)
        · intro t ht
          simp only [List.map_append, List.mem_append, List.map_cons, List.map_nil,
            List.mem_singleton] at ht
          rcases ht with ht | ht
          · exact List.mem_cons_of_mem _ (hseen t ht)
          · exact ht ▸ List.mem_cons_self _ _
      · simp only [pickTop5, if_neg hc]
        exact ih _ _ h hseen

theorem parseTypes_mem_three {query t : String} (h : t ∈ parseTypes query) :
    t ∈ (["apartment", "house", "condominium"] : List String) := by
  unfold parseTypes typePairs at h
  simp only [List.foldl_cons, List.foldl_nil] at h
  split_ifs at h <;> simp_all <;> tauto

theorem mem_searchRowsFor_types {stDist : Rat × Rat → Rat × Rat → Rat}
    {data : List Listing} {query : String} {r : SearchRow}
    (h : r ∈ searchRowsFor stDist data query) : r.2.1 ∈ parseTypes query := by
  unfold searchRowsFor at h
  rcases hc : parseCoords query with _ | pt
  · rw [hc] at h
    unfold textRows at h
    have h1 := (List.perm_insertionSort rRowTitle _).mem_iff.mp ((List.take_sublist 50 _).subset h)
    rcases List.mem_map.mp h1 with ⟨l, hl, he⟩
    rcases List.mem_filter.mp hl with ⟨_, hp⟩
    subst he
    simp only [decide_eq_true_eq] at hp
    exact hp.1
  · rw [hc] at h
    unfold spatialRows at h
    have h1 := (List.perm_insertionSort rRowDist _).mem_iff.mp ((List.take_sublist 50 _).subset h)
    rcases List.mem_filterMap.mp h1 with ⟨l, _, he⟩
    rcases hg : l.geom with _ | g
    · rw [hg] at he; simp at he
    · rw [hg] at he
      dsimp only at he
      split_ifs at he with hcnd
      have hre := Option.some_inj.mp he
      subst hre
      exact hcnd.1

theorem mem_searchKept {fz : FuzzLib} {stDist : Rat × Rat → Rat × Rat → Rat}
    {data : List Listing} {query : String} {e : SearchEntry}
    (h : e ∈ searchKept fz stDist data query) :
    ∃ r ∈ searchRowsFor stDist data query, e = mkScoredEntry fz query r := by
  unfold searchKept at h
  split_ifs at h with hg
  · simp at h
  · rcases pickTop5_spec (List.insertionSort rSearch
      ((searchRowsFor stDist data query).map (mkScoredEntry fz query))) [] [] with ⟨s, hs, hsub⟩
    rw [hs] at h
    simp only [List.nil_append] at h
    have h1 := (List.perm_insertionSort rSearch _).mem_iff.mp (hsub.subset h)
    rcases List.mem_map.mp h1 with ⟨r, hr, he⟩
    exact ⟨r, hr, he.symm⟩

theorem searchKept_sorted (fz : FuzzLib) (stDist : Rat × Rat → Rat × Rat → Rat)
    (data : List Listing) (query : String) :
    List.Pairwise rSearch (searchKept fz stDist data query) := by
  unfold searchKept
  split_ifs with hg
  · simp
  · rcases pickTop5_spec (List.insertionSort rSearch
      ((searchRowsFor stDist data query).map (mkScoredEntry fz query))) [] [] with ⟨s, hs, hsub⟩
    rw [hs]
    simp only [List.nil_append]
    exact List.Pairwise.sublist hsub (List.sorted_insertionSort rSearch _)

theorem searchKept_length (fz : FuzzLib) (stDist : Rat × Rat → Rat × Rat → Rat)
    (data : List Listing) (query : String) :
    (searchKept fz stDist data query).length ≤ 5 := by
  unfold searchKept
  split_ifs with hg
  · simp
  · exact pickTop5_length _ [] [] (by simp)

theorem searchKept_nodup (fz : FuzzLib) (stDist : Rat × Rat → Rat × Rat → Rat)
    (data : List Listing) (query : String) :
    ((searchKept fz stDist data query).map (fun e => e.title)).Nodup := by
  unfold searchKept
  split_ifs with hg
  · simp
  · exact pickTop5_nodup _ [] [] (by simp) (by simp)

theorem searchKept_priority {fz : FuzzLib} {stDist : Rat × Rat → Rat × Rat → Rat}
    {data : List Listing} {query : String} {e : SearchEntry}
    (h : e ∈ searchKept fz stDist data query) : e.priority = priorityOrder e.type := by
  rcases mem_searchKept h with ⟨r, _, he⟩
  subst he
  rfl

theorem autoKept_priority {fz : FuzzLib} {data : List Listing} {query : String}
    {e : AutoEntry} (h : e ∈ autoKept fz data query) :
    e.priority = priorityOrder e.type :=
  autoCombined_priority (autoKept_subset h)

theorem searchSortKey_eq_claim {e : SearchEntry} (h : e.priority = priorityOrder e.type) :
    searchSortKey e = sClaimKey e := by
  unfold searchSortKey sClaimKey
  rw [h]

theorem rAuto_to_claimKey {a b : AutoEntry} (ha : a.priority = priorityOrder a.type)
    (hb : b.priority = priorityOrder b.type) (h : rAuto a b) :
    aClaimKey a ≤ aClaimKey b := by
  unfold rAuto autoSortKey at h
  unfold aClaimKey
  rw [← ha, ← hb]
  rcases (Prod.Lex.le_iff _ _).mp h with h1 | ⟨h1, h2⟩
  · exact (Prod.Lex.le_iff _ _).mpr (Or.inl h1)
  · refine (Prod.Lex.le_iff _ _).mpr (Or.inr ⟨h1, ?_⟩)
    rcases lt_or_eq_of_le h2 with h3 | h3
    · exact (Prod.Lex.le_iff _ _).mpr (Or.inl h3)
    · exact (Prod.Lex.le_iff _ _).mpr (Or.inr ⟨h3, le_refl ⊤⟩)

theorem respItems_autocomplete (fz : FuzzLib) (db : Store) (qRaw : String) :
    respItems (autocomplete fz db qRaw) = [] ∨
    ∃ data, respItems (autocomplete fz db qRaw) =
      (autoKept fz data (strTrim qRaw)).map
        (fun e => (⟨e.title, e.type, e.score⟩ : AutoSuggestion)) := by
  unfold autocomplete
  dsimp only
  split_ifs
  · exact Or.inl rfl
  · cases db with
    | connectFail => exact Or.inl rfl
    | queryFail d => exact Or.inl rfl
    | avail data => exact Or.inr ⟨data, rfl⟩

theorem respItems_search (fz : FuzzLib) (stDist : Rat × Rat → Rat × Rat → Rat)
    (db : Store) (qRaw : String) :
    respItems (search fz stDist db qRaw) = [] ∨
    ∃ data, respItems (search fz stDist db qRaw) =
      (searchKept fz stDist data (strLower (strTrim qRaw))).map
        (fun e => (⟨e.title, e.type, e.distance_meters⟩ : SearchSuggestion)) := by
  unfold search
  dsimp only
  split_ifs
  · exact Or.inl rfl
  · cases db with
    | connectFail => exact Or.inl rfl
    | queryFail d => exact Or.inl rfl
    | avail data => exact Or.inr ⟨data, rfl⟩

/-! ## Claim theorems -/

/-- C1 counterexample: the claim says any internal failure results in an
empty-list response for both operations, never an error payload or
non-success status.  False for autocomplete: on a store failure it answers
with an error payload and HTTP status 500 (app.py lines 114-116). -/
theorem c1_claim_false :
    autocomplete demoFz Store.connectFail "ab" = HttpResp.err "Internal server error" 500 ∧
    autocomplete demoFz Store.connectFail "ab" ≠ HttpResp.list [] := by
  constructor
  · decide
  · decide

/-- C1 amended: the search endpoint answers every internal store failure
(connection failure or retrieval-time query failure) with an empty list;
the autocomplete endpoint answers them with an error payload and status
500 whenever its query passes validation. -/
theorem c1_amended_failure_responses (fz : FuzzLib) (stDist : Rat × Rat → Rat × Rat → Rat)
    (data : List Listing) (qRaw : String) (h : 2 ≤ (strTrim qRaw).length) :
    search fz stDist Store.connectFail qRaw = HttpResp.list [] ∧
    search fz stDist (Store.queryFail data) qRaw = HttpResp.list [] ∧
    autocomplete fz Store.connectFail qRaw = HttpResp.err "Internal server error" 500 ∧
    autocomplete fz (Store.queryFail data) qRaw = HttpResp.err "Internal server error" 500 := by
  have hlen : ¬ (strTrim qRaw).length < 2 := Nat.not_lt.mpr h
  have hne : (strTrim qRaw).data.isEmpty = false := by
    rcases hd : (strTrim qRaw).data with _ | ⟨c, cs⟩
    · exfalso
      have h0 : (strTrim qRaw).length = 0 := by simp [String.length, hd]
      omega
    · rfl
  refine ⟨?_, ?_, ?_, ?_⟩
  · unfold search; dsimp only; split_ifs <;> rfl
  · unfold search; dsimp only; split_ifs <;> rfl
  · unfold autocomplete; dsimp only; simp [hne, hlen]
  · unfold autocomplete; dsimp only; simp [hne, hlen]

/-- C1 witness: the amended statement at the query "ab" and an empty row
set. -/
theorem c1_amended_witness :
    search demoFz (fun _ _ => 0) Store.connectFail "ab" = HttpResp.list [] ∧
    search demoFz (fun _ _ => 0) (Store.queryFail []) "ab" = HttpResp.list [] ∧
    autocomplete demoFz Store.connectFail "ab" = HttpResp.err "Internal server error" 500 ∧
    autocomplete demoFz (Store.queryFail []) "ab" = HttpResp.err "Internal server error" 500 :=
  c1_amended_failure_responses demoFz (fun _ _ => 0) [] "ab" (by decide)

set_option maxRecDepth 100000 in
/-- C2 counterexample: the claim says both the autocomplete fuzzy pool and
the search scoring pass use the maximum of three metrics.  False for the
search pass, which computes only ratio and partial ratio (app.py lines
241-243): at query "near mrt surian" and title "Surian MRT Near" the
engine's scored entry differs from the three-metric maximum (the token
sort of the two strings is equal, so the third metric is 100). -/
theorem c2_claim_false :
    (mkScoredEntry demoFz "near mrt surian" ("Surian MRT Near", "apartment", none)).score ≠
      specThreeMax demoFz "near mrt surian" "Surian MRT Near" := by
  decide

/-- C2 amended: every autocomplete fuzzy-pool entry's score equals the
three-metric maximum on the lower-cased query and title, while every
scored entry of the search pass carries the maximum of whole-string ratio
and partial ratio only. -/
theorem c2_amended_scores (fz : FuzzLib) (data : List Listing) (query : String) (e : AutoEntry)
    (h1 : e ∈ autoCombined fz data query)
    (h2 : e.title ∉ (autoIlike data query).map (fun p => p.1)) :
    e.score = specThreeMax fz query e.title ∧
    ∀ (q : String) (rows : List SearchRow) (se : SearchEntry),
      se ∈ rows.map (mkScoredEntry fz q) →
        se.score = Nat.max (fz.ratio q (strLower se.title))
          (fz.partRatio q (strLower se.title)) := by
  constructor
  · exact autoCombined_fuzzy_score h1 h2
  · intro q rows se hse
    rcases List.mem_map.mp hse with ⟨r, _, he⟩
    subst he
    rfl

set_option maxRecDepth 100000 in
/-- C2 witness: the amended statement at the store holding "Condo
Hilltop", the query "hilltp" and the fuzzy-pool entry it produces. -/
theorem c2_amended_witness :
    (⟨"Condo Hilltop", "condominium", 83, 3⟩ : AutoEntry).score =
      specThreeMax demoFz "hilltp" "Condo Hilltop" ∧
    ∀ (q : String) (rows : List SearchRow) (se : SearchEntry),
      se ∈ rows.map (mkScoredEntry demoFz q) →
        se.score = Nat.max (demoFz.ratio q (strLower se.title))
          (demoFz.partRatio q (strLower se.title)) :=
  c2_amended_scores demoFz [⟨"Condo Hilltop", "condominium", none⟩] "hilltp"
    ⟨"Condo Hilltop", "condominium", 83, 3⟩ (by decide) (by decide)

/-- C3: a search query that contains the proximity marker "near" but
resolves no landmark yields exactly the empty list, on every store state:
no fallback to a text-only search happens. -/
theorem c3_near_unresolved_empty (fz : FuzzLib) (stDist : Rat × Rat → Rat × Rat → Rat)
    (db : Store) (qRaw : String)
    (h1 : containsSub (strLower (strTrim qRaw)) "near" = true)
    (h2 : parseCoords (strLower (strTrim qRaw)) = none) :
    search fz stDist db qRaw = HttpResp.list [] := by
  unfold search
  dsimp only
  split_ifs with hv
  · rfl
  · cases db with
    | connectFail => rfl
    | queryFail data => rfl
    | avail data =>
        have hk : searchKept fz stDist data (strLower (strTrim qRaw)) = [] := by
          unfold searchKept
          rw [if_pos ⟨h1, h2⟩]
        dsimp only
        rw [hk]
        rfl

/-- C3 witness: the query "condo near klcc" names no known landmark. -/
theorem c3_witness :
    search demoFz (fun _ _ => 0) (Store.avail []) "condo near klcc" = HttpResp.list [] :=
  c3_near_unresolved_empty demoFz (fun _ _ => 0) (Store.avail []) "condo near klcc"
    (by decide) (by decide)

/-- C4: a stripped autocomplete query of length below 2, or a stripped
search query of length below 3, is answered with the empty list on every
store state, including the failing ones, so no store access is needed. -/
theorem c4_short_query_empty (fz : FuzzLib) (stDist : Rat × Rat → Rat × Rat → Rat)
    (db : Store) (qRaw : String) :
    ((strTrim qRaw).length < 2 → autocomplete fz db qRaw = HttpResp.list []) ∧
    ((strTrim qRaw).length < 3 → search fz stDist db qRaw = HttpResp.list []) := by
  constructor
  · intro h
    unfold autocomplete
    dsimp only
    rw [if_pos]
    simp [h]
  · intro h
    have h3 : (strLower (strTrim qRaw)).length < 3 := by rw [strLower_length]; exact h
    unfold search
    dsimp only
    rw [if_pos]
    simp [h3]

/-- C4 witness: the short queries "a" and "ab" against a failing store. -/
theorem c4_witness :
    autocomplete demoFz Store.connectFail "a" = HttpResp.list [] ∧
    search demoFz (fun _ _ => 0) Store.connectFail "ab" = HttpResp.list [] :=
  ⟨(c4_short_query_empty demoFz (fun _ _ => 0) Store.connectFail "a").1 (by decide),
   (c4_short_query_empty demoFz (fun _ _ => 0) Store.connectFail "ab").2 (by decide)⟩

/-- C5: for every input, each operation returns at most 5 suggestions and
no two returned entries share a title. -/
theorem c5_length_nodup (fz : FuzzLib) (stDist : Rat × Rat → Rat × Rat → Rat)
    (db : Store) (qRaw : String) :
    (respItems (autocomplete fz db qRaw)).length ≤ 5 ∧
    ((respItems (autocomplete fz db qRaw)).map (fun s => s.title)).Nodup ∧
    (respItems (search fz stDist db qRaw)).length ≤ 5 ∧
    ((respItems (search fz stDist db qRaw)).map (fun s => s.title)).Nodup := by
  have ha := respItems_autocomplete fz db qRaw
  have hs := respItems_search fz stDist db qRaw
  refine ⟨?_, ?_, ?_, ?_⟩
  · rcases ha with h | ⟨data, h⟩ <;> rw [h]
    · simp
    · rw [List.length_map]
      exact autoKept_length fz data (strTrim qRaw)
  · rcases ha with h | ⟨data, h⟩ <;> rw [h]
    · simp
    · have hmm : ((autoKept fz data (strTrim qRaw)).map
          (fun e => (⟨e.title, e.type, e.score⟩ : AutoSuggestion))).map (fun s => s.title) =
          (autoKept fz data (strTrim qRaw)).map (fun e => e.title) := by
        rw [List.map_map]
        rfl
      rw [hmm]
      exact autoKept_nodup fz data (strTrim qRaw)
  · rcases hs with h | ⟨data, h⟩ <;> rw [h]
    · simp
    · rw [List.length_map]
      exact searchKept_length fz stDist data (strLower (strTrim qRaw))
  · rcases hs with h | ⟨data, h⟩ <;> rw [h]
    · simp
    · have hmm : ((searchKept fz stDist data (strLower (strTrim qRaw))).map
          (fun e => (⟨e.title, e.type, e.distance_meters⟩ : SearchSuggestion))).map
            (fun s => s.title) =
          (searchKept fz stDist data (strLower (strTrim qRaw))).map (fun e => e.title) := by
        rw [List.map_map]
        rfl
      rw [hmm]
      exact searchKept_nodup fz stDist data (strLower (strTrim qRaw))

/-- C6: every entry of the composed autocomplete ranking whose title was
retrieved by the exact case-insensitive substring query carries a score of
at least 70, whatever its independently computed fuzzy score. -/
theorem c6_ilike_score_boost (fz : FuzzLib) (data : List Listing) (query : String)
    (e : AutoEntry) (h1 : e ∈ autoKept fz data query)
    (h2 : e.title ∈ (autoIlike data query).map (fun p => p.1)) : 70 ≤ e.score :=
  autoCombined_ilike_score (autoKept_subset h1) h2

set_option maxRecDepth 100000 in
/-- C6 witness: the substring hit "Apartment One" for the query
"apartment one". -/
theorem c6_witness : 70 ≤ (⟨"Apartment One", "apartment", 100, 1⟩ : AutoEntry).score :=
  c6_ilike_score_boost demoFz [⟨"Apartment One", "apartment", none⟩] "apartment one"
    ⟨"Apartment One", "apartment", 100, 1⟩ (by decide) (by decide)

/-- C7: a store title absent from the substring hits enters the combined
autocomplete pool exactly when its three-metric fuzzy score reaches 40,
while the search pass scores every retrieved row without any filtering, so
the score there only ranks. -/
theorem c7_threshold_membership (fz : FuzzLib) (data : List Listing) (query t : String)
    (rows : List SearchRow)
    (h1 : t ∈ (autoAll data).map (fun p => p.1))
    (h2 : t ∉ (autoIlike data query).map (fun p => p.1)) :
    (t ∈ (autoCombined fz data query).map (fun e => e.title) ↔
      40 ≤ autoFuzzyScore fz query t) ∧
    (rows.map (mkScoredEntry fz query)).map (fun e => e.title) = rows.map (fun r => r.1) := by
  refine ⟨autoCombined_titles_iff h1 h2, ?_⟩
  rw [List.map_map]
  rfl

set_option maxRecDepth 100000 in
/-- C7 witness: the title "Condo Hilltop" with the typo query "hilltp",
and one raw search row. -/
theorem c7_witness :
    ("Condo Hilltop" ∈ (autoCombined demoFz [⟨"Condo Hilltop", "condominium", none⟩]
        "hilltp").map (fun e => e.title) ↔
      40 ≤ autoFuzzyScore demoFz "hilltp" "Condo Hilltop") ∧
    (([("R", "apartment", (none : Option Rat))].map (mkScoredEntry demoFz "hilltp")).map
        (fun e => e.title) = [("R", "apartment", (none : Option Rat))].map (fun r => r.1)) :=
  c7_threshold_membership demoFz [⟨"Condo Hilltop", "condominium", none⟩] "hilltp"
    "Condo Hilltop" [("R", "apartment", none)] (by decide) (by decide)

/-- C8: both composed result lists are ordered by the composite key
(priority ascending, score descending, distance ascending with a missing
distance last), with the priority read from the table apartment=1,
house=2, condominium=3, anything else 4; autocomplete entries carry no
distance, so their third component is constant. -/
theorem c8_composite_order (fz : FuzzLib) (stDist : Rat × Rat → Rat × Rat → Rat)
    (data : List Listing) (query : String) :
    List.Pairwise (fun a b => sClaimKey a ≤ sClaimKey b) (searchKept fz stDist data query) ∧
    List.Pairwise (fun a b => aClaimKey a ≤ aClaimKey b) (autoKept fz data query) ∧
    priorityOrder "apartment" = 1 ∧ priorityOrder "house" = 2 ∧
    priorityOrder "condominium" = 3 ∧
    (∀ t : String, t ∉ (["apartment", "house", "condominium"] : List String) →
      priorityOrder t = 4) := by
  refine ⟨?_, ?_, by decide, by decide, by decide, ?_⟩
  · refine List.Pairwise.imp_of_mem ?_ (searchKept_sorted fz stDist data query)
    intro a b ha hb hr
    rw [← searchSortKey_eq_claim (searchKept_priority ha),
      ← searchSortKey_eq_claim (searchKept_priority hb)]
    exact hr
  · refine List.Pairwise.imp_of_mem ?_ (autoKept_sorted fz data query)
    intro a b ha hb hr
    exact rAuto_to_claimKey (autoKept_priority ha) (autoKept_priority hb) hr
  · intro t ht
    have h1 : ¬ t = "apartment" := fun hh => ht (by simp [hh])
    have h2 : ¬ t = "house" := fun hh => ht (by simp [hh])
    have h3 : ¬ t = "condominium" := fun hh => ht (by simp [hh])
    simp [priorityOrder, h1, h2, h3]

/-- C8 witness: the theorem applied at a concrete input, and the default
priority at the unlisted type "office". -/
theorem c8_witness :
    List.Pairwise (fun a b => sClaimKey a ≤ sClaimKey b)
      (searchKept demoFz (fun _ _ => 0) [] "abc") ∧
    priorityOrder "office" = 4 :=
  ⟨(c8_composite_order demoFz (fun _ _ => 0) [] "abc").1,
   (c8_composite_order demoFz (fun _ _ => 0) [] "abc").2.2.2.2.2 "office" (by decide)⟩

set_option maxRecDepth 100000 in
/-- C9: a spatial candidate whose computed distance is exactly 0 gets a
null distance_meters field, because the handler tests the distance for
truthiness before rounding; a full run on a store whose only listing sits
exactly at the landmark shows the null in the response. -/
theorem c9_zero_distance_null :
    (∀ (fz : FuzzLib) (query title ty : String),
      (mkScoredEntry fz query (title, ty, some 0)).distance_meters = none) ∧
    respItems (search demoFz (fun _ _ => 0)
        (Store.avail [⟨"X", "apartment", some (0, 0)⟩]) "condo near mrt surian") =
      [⟨"X", "apartment", none⟩] := by
  constructor
  · intro fz query title ty
    simp [mkScoredEntry]
  · decide

/-- C10: every suggestion the search endpoint returns has one of the three
filtered property types, because the parsed type filter always lies inside
the set the handler defaults to. -/
theorem c10_types_subset (fz : FuzzLib) (stDist : Rat × Rat → Rat × Rat → Rat)
    (db : Store) (qRaw : String) (s : SearchSuggestion)
    (h : s ∈ respItems (search fz stDist db qRaw)) :
    s.type ∈ (["apartment", "house", "condominium"] : List String) := by
  rcases respItems_search fz stDist db qRaw with he | ⟨data, he⟩
  · rw [he] at h
    simp at h
  · rw [he] at h
    rcases List.mem_map.mp h with ⟨e, hke, hs⟩
    rcases mem_searchKept hke with ⟨r, hr, her⟩
    have hts : s.type = r.2.1 := by
      subst hs
      subst her
      rfl
    rw [hts]
    exact parseTypes_mem_three (mem_searchRowsFor_types hr)

set_option maxRecDepth 100000 in
/-- C10 witness: a text search for "apartment" returning one suggestion. -/
theorem c10_witness :
    (⟨"Sunway Apartment", "apartment", none⟩ : SearchSuggestion).type ∈
      (["apartment", "house", "condominium"] : List String) :=
  c10_types_subset demoFz (fun _ _ => 0)
    (Store.avail [⟨"Sunway Apartment", "apartment", none⟩]) "apartment"
    ⟨"Sunway Apartment", "apartment", none⟩ (by decide)

end Airea
